import Mathlib

/-!
Verification of the `ApiJsonGenerator` engine
(`src/libraries/api-extractor/src/generators/ApiJsonGenerator.ts`).

The generator walks an already-resolved declaration tree (`AstItem`s), applies
a stability filter (release tags) and a name-admissibility filter
(`supportedName`), projects each admitted node to a JSON node keyed by the
node's name, and finally saves and schema-validates the assembled document.

The embedding below models JavaScript objects as ordered association lists
(`JsonObject`), so key insertion order and overwrite semantics are explicit.
Parts of the repository the generator depends on but that are not in the
`api-extractor` sources given here (the `ReleaseTag` and `AstItemKind` enums,
`ApiJsonFile.convertKindToJson`, the `AstItem` data classes and the kind
dispatch of `AstItemVisitor`) are modelled from the specification and marked
as such in their doc comments.
-/

/-- JSON-like values assembled by the generator: strings, booleans, arrays,
and objects with ordered fields (JavaScript object key insertion order). -/
inductive Json where
  | str (s : String)
  | bool (b : Bool)
  | arr (elements : List Json)
  | obj (fields : List (String × Json))

/-- A JavaScript object under construction, as passed for `refObject`:
an ordered list of key/value pairs. -/
abbrev JsonObject := List (String × Json)

/-- Encode a list of opaque documentation text blocks as a JSON array. -/
def Json.strArr (l : List String) : Json := .arr (l.map Json.str)

/-- Look up a key in a JSON object (first matching entry). -/
def lookupKey : JsonObject → String → Option Json
  | [], _ => none
  | (a, b) :: rest, k => if a == k then some b else lookupKey rest k

/-- Whether a JSON object already has an entry for key `k` (JavaScript
`k in obj`). -/
def hasKey : JsonObject → String → Bool
  | [], _ => false
  | (a, _) :: rest, k => a == k || hasKey rest k

/-- Membership of a string in a list of strings. -/
def containsStr : List String → String → Bool
  | [], _ => false
  | s :: rest, k => s == k || containsStr rest k

/-- Overwrite every entry keyed `k` with the value `v`, keeping its
position (the in-place update half of a JavaScript assignment). -/
def jsAssignReplace : JsonObject → String → Json → JsonObject
  | [], _, _ => []
  | (a, b) :: rest, k, v =>
    (if a == k then (k, v) else (a, b)) :: jsAssignReplace rest k v

/-- JavaScript assignment `obj[k] = v`: overwrite in place if the key exists
(keeping its position), otherwise append the new entry at the end. -/
def jsAssign (fs : JsonObject) (k : String) (v : Json) : JsonObject :=
  if hasKey fs k then jsAssignReplace fs k v
  else fs ++ [(k, v)]

/-- Number of entries of a JSON object carrying key `k`. -/
def countKey : JsonObject → String → Nat
  | [], _ => 0
  | (a, _) :: rest, k => (if a == k then 1 else 0) + countKey rest k

/-- The field keys of a JSON object value (empty for non-objects). -/
def objKeys : Json → List String
  | .obj fs => fs.map Prod.fst
  | _ => []

/-- Whether a JSON value is an object carrying field `k`. -/
def objHasField (j : Json) (k : String) : Bool := containsStr (objKeys j) k

mutual
/-- Whether the string `k` occurs as an object key anywhere inside a JSON value. -/
def mentionsJson : Json → String → Bool
  | .str _, _ => false
  | .bool _, _ => false
  | .arr xs, k => mentionsArr xs k
  | .obj fs, k => mentionsObj fs k
/-- Key occurrence inside each element of a JSON array. -/
def mentionsArr : List Json → String → Bool
  | [], _ => false
  | j :: js, k => mentionsJson j k || mentionsArr js k
/-- Key occurrence among the entries of a JSON object, at the top level or
nested inside an entry's value. -/
def mentionsObj : List (String × Json) → String → Bool
  | [], _ => false
  | (a, b) :: fs, k => a == k || mentionsJson b k || mentionsObj fs k
end

/-- Modelled from the spec: the declared-stability tags
(`stabilityTag ∈ \x7bNone, Beta, Public, Alpha, Internal\x7d`, spec §3); the
`ReleaseTag` enum itself lives in `aedoc/ApiDocumentation.ts`, outside the
sources given here. -/
inductive ReleaseTag where
  | None
  | Beta
  | Public
  | Alpha
  | Internal
deriving DecidableEq, Repr

/-- The stability filter of `ApiJsonGenerator.visit` (lines 76-83): release
tags `None`, `Beta` and `Public` fall through the `switch`; everything else
(`Alpha`, `Internal`) makes `visit` return without dispatching. -/
def releaseTagAdmitted : ReleaseTag → Bool
  | .None => true
  | .Beta => true
  | .Public => true
  | .Alpha => false
  | .Internal => false

/-- Modelled from the spec: the closed set of entity kinds the dispatcher
and projectors handle (spec §2, §4.3); `AstItemKind` is declared in
`ast/AstItem.ts`, outside the sources given here. -/
inductive AstItemKind where
  | Package
  | Namespace
  | Class
  | Interface
  | Enum
  | EnumValue
  | Function
  | Method
  | Constructor
  | Property
  | ModuleVariable
deriving DecidableEq, Repr

/-- Modelled from the spec: `ApiJsonFile.convertKindToJson`, mapping each
entity kind to its externally-published discriminator string (spec §3
"fixed vocabulary"); `ApiJsonFile` lives in `jsonItem/`, outside the sources
given here. -/
def convertKindToJson : AstItemKind → String
  | .Package => "package"
  | .Namespace => "namespace"
  | .Class => "class"
  | .Interface => "interface"
  | .Enum => "enum"
  | .EnumValue => "enum value"
  | .Function => "function"
  | .Method => "method"
  | .Constructor => "constructor"
  | .Property => "property"
  | .ModuleVariable => "module variable"

/-- The externally-published discriminator vocabulary: the range of
`convertKindToJson`. -/
def jsonKindVocabulary : List String :=
  ["package", "namespace", "class", "interface", "enum", "enum value",
   "function", "method", "constructor", "property", "module variable"]

/-- Modelled from the spec: access modifiers of class members
(spec §4.3: "accessModifier (lowercase name or empty...)"); the
`AccessModifier` enum is declared in `ast/AstMember.ts`, outside the sources
given here.  `Option.none` models an absent (falsy) modifier. -/
inductive AccessModifier where
  | Private
  | Protected
  | Public
deriving DecidableEq, Repr

/-- `AccessModifier[m].toLowerCase()`: the lowercase enum-entry name. -/
def AccessModifier.lowerName : AccessModifier → String
  | .Private => "private"
  | .Protected => "protected"
  | .Public => "public"

/-- The `IParam` record of `jsonItem/JsonItem.ts` (outside the sources given
here), modelled from the spec: a per-parameter record carrying a description
and the flags filled in by `visitApiParam`. -/
structure IParam where
  name : String
  description : List String
  isOptional : Bool
  isSpread : Bool
  type : String
deriving DecidableEq, Repr

/-- Modelled from the spec: the documentation data attached to every
declaration node (spec §3: stability tag plus opaque text blocks, plus the
per-parameter records); the `ApiDocumentation` class lives in `aedoc/`,
outside the sources given here. -/
structure ApiDocumentation where
  releaseTag : ReleaseTag
  summary : List String
  remarks : List String
  deprecatedMessage : List String
  returnsMessage : List String
  parameters : List (String × IParam)
deriving DecidableEq, Repr

/-- Modelled from the spec: an `AstParameter` node (spec §6: per-parameter
optional/spread/type flags); declared in `ast/AstParameter.ts`, outside the
sources given here. -/
structure AstParameter where
  name : String
  supportedName : Bool
  isOptional : Bool
  isSpread : Bool
  type : String
deriving DecidableEq, Repr

/-- Modelled from the spec: numeric syntax-kind tag of a `set` accessor in
the external parser's AST (`ts.SyntaxKind.SetAccessor`). -/
def setAccessorSyntaxKind : Nat := 150

/-- Modelled from the spec: numeric syntax-kind tag of a `get` accessor in
the external parser's AST (`ts.SyntaxKind.GetAccessor`). -/
def getAccessorSyntaxKind : Nat := 149

/-- Data of an `AstEnumValue` node.  `declTokens` models the token list of
the parsed enum-member declaration (`getFirstToken`/`getLastToken` of
lines 150-152 read the first and last of these): for `A = 5` the tokens are
`["A", "=", "5"]`; for plain `A` just `["A"]`; an absent declaration is the
empty list. -/
structure AstEnumValue where
  name : String
  supportedName : Bool
  documentation : ApiDocumentation
  declTokens : List String
deriving DecidableEq, Repr

/-- Data of a plain `AstMember` node (a class member that is neither a
method nor a property); `declKind` is the raw numeric declaration kind used
on line 234. -/
structure AstMember where
  name : String
  supportedName : Bool
  documentation : ApiDocumentation
  declKind : Nat
deriving DecidableEq, Repr

/-- Data of an `AstProperty` node; `declKind` is the declaration's numeric
syntax kind compared against `SetAccessor` on line 242. -/
structure AstProperty where
  name : String
  supportedName : Bool
  documentation : ApiDocumentation
  declKind : Nat
  isOptional : Bool
  isReadOnly : Bool
  isStatic : Bool
  type : String
deriving DecidableEq, Repr

/-- Data of an `AstModuleVariable` node. -/
structure AstModuleVariable where
  name : String
  supportedName : Bool
  documentation : ApiDocumentation
  type : String
  value : String
deriving DecidableEq, Repr

/-- Data of an `AstMethod` node; `declarationLine` models
`getDeclarationLine()` (the one-line rendered signature). -/
structure AstMethod where
  name : String
  supportedName : Bool
  documentation : ApiDocumentation
  params : List AstParameter
  accessModifier : Option AccessModifier
  isOptional : Bool
  isStatic : Bool
  returnType : String
  declarationLine : String
deriving DecidableEq, Repr

/-- Data of an `AstFunction` node. -/
structure AstFunction where
  name : String
  supportedName : Bool
  documentation : ApiDocumentation
  params : List AstParameter
  returnType : String
deriving DecidableEq, Repr

/-- Modelled from the spec: a structured type is a class or an interface
(spec §4.3 table); the `AstStructuredType` class is declared outside the
sources given here. -/
inductive StructuredTypeKind where
  | Class
  | Interface
deriving DecidableEq, Repr

/-- The kind-string selection of lines 93-96. -/
def structuredTypeKindString : StructuredTypeKind → String
  | .Class => convertKindToJson AstItemKind.Class
  | .Interface => convertKindToJson AstItemKind.Interface

/-- The declaration tree (spec §3, §6: rooted tree of typed nodes with
already-sorted member lists).  Container constructors carry their sorted
member lists (`getSortedMemberItems`); leaf kinds carry the data their
projectors read. -/
inductive AstItem where
  | package (name : String) (supportedName : Bool)
      (documentation : ApiDocumentation) (members : List AstItem)
  | namespaceDecl (name : String) (supportedName : Bool)
      (documentation : ApiDocumentation) (members : List AstItem)
  | structuredType (name : String) (supportedName : Bool)
      (documentation : ApiDocumentation) (kind : StructuredTypeKind)
      (extendsTypes : Option String) (implementsTypes : Option String)
      (typeParameters : Option (List String)) (members : List AstItem)
  | enumDecl (name : String) (supportedName : Bool)
      (documentation : ApiDocumentation) (members : List AstItem)
  | enumValue (v : AstEnumValue)
  | functionDecl (f : AstFunction)
  | member (m : AstMember)
  | property (p : AstProperty)
  | moduleVariable (v : AstModuleVariable)
  | method (m : AstMethod)

/-- The documentation attached to a node (`astItem.documentation`). -/
def AstItem.documentation : AstItem → ApiDocumentation
  | .package _ _ d _ => d
  | .namespaceDecl _ _ d _ => d
  | .structuredType _ _ d _ _ _ _ _ => d
  | .enumDecl _ _ d _ => d
  | .enumValue v => v.documentation
  | .functionDecl f => f.documentation
  | .member m => m.documentation
  | .property p => p.documentation
  | .moduleVariable v => v.documentation
  | .method m => m.documentation

/-- The name of a node (`astItem.name`). -/
def AstItem.name : AstItem → String
  | .package n _ _ _ => n
  | .namespaceDecl n _ _ _ => n
  | .structuredType n _ _ _ _ _ _ _ => n
  | .enumDecl n _ _ _ => n
  | .enumValue v => v.name
  | .functionDecl f => f.name
  | .member m => m.name
  | .property p => p.name
  | .moduleVariable v => v.name
  | .method m => m.name

/-- The name-admissibility flag of a node (`astItem.supportedName`). -/
def AstItem.supportedName : AstItem → Bool
  | .package _ s _ _ => s
  | .namespaceDecl _ s _ _ => s
  | .structuredType _ s _ _ _ _ _ _ => s
  | .enumDecl _ s _ _ => s
  | .enumValue v => v.supportedName
  | .functionDecl f => f.supportedName
  | .member m => m.supportedName
  | .property p => p.supportedName
  | .moduleVariable v => v.supportedName
  | .method m => m.supportedName

/-- `ApiJsonGenerator.visitApiParam` (lines 318-328) on a present parameter
record: an unsupported parameter name returns without touching the record;
otherwise the record's `isOptional`, `isSpread` and `type` are overwritten
from the `AstParameter`.  (The absent-record case `if (refObject)` is
handled at the call site, which only maps records that exist.) -/
def visitApiParam (apiParam : AstParameter) (refObject : IParam) : IParam :=
  if apiParam.supportedName = false then refObject
  else { refObject with
    isOptional := apiParam.isOptional
    isSpread := apiParam.isSpread
    type := apiParam.type }

/-- The parameter loops of `visitAstFunction` (line 171) and
`visitAstMethod` (line 280): for each declared parameter, the documentation
record under that parameter's name (when one exists) is updated in place by
`visitApiParam`. -/
def applyParams : List AstParameter → List (String × IParam) → List (String × IParam)
  | [], docParams => docParams
  | p :: rest, docParams =>
    applyParams rest
      (docParams.map (fun kv => if kv.1 == p.name then (kv.1, visitApiParam p kv.2) else kv))

/-- JSON encoding of one `IParam` record. -/
def IParam.toJson (p : IParam) : Json :=
  .obj [("name", .str p.name),
        ("description", Json.strArr p.description),
        ("isOptional", .bool p.isOptional),
        ("isSpread", .bool p.isSpread),
        ("type", .str p.type)]

/-- JSON encoding of the `parameters` map of a function or method node. -/
def parametersJson (l : List (String × IParam)) : Json :=
  .obj (l.map (fun kv => (kv.1, kv.2.toJson)))

/-- The enum-value text extraction of lines 150-154:
`lastToken && lastToken !== firstToken ? lastToken.getText() : ''`.
With no declaration there are no tokens and `lastToken` is undefined; with a
single token `lastToken` is the very same node as `firstToken`; only a
declaration of at least two tokens yields the last token's text. -/
def enumValueLiteral : List String → String
  | [] => ""
  | [_] => ""
  | _ :: t :: rest => (t :: rest).getLastD t

/-- `ApiJsonGenerator.visitAstEnumValue` (lines 145-164). -/
def visitAstEnumValue (apiEnumValue : AstEnumValue) (refObject : JsonObject) : JsonObject :=
  if apiEnumValue.supportedName = false then refObject
  else
    jsAssign refObject apiEnumValue.name (.obj
      [("kind", .str (convertKindToJson AstItemKind.EnumValue)),
       ("value", .str (enumValueLiteral apiEnumValue.declTokens)),
       ("deprecatedMessage", Json.strArr apiEnumValue.documentation.deprecatedMessage),
       ("summary", Json.strArr apiEnumValue.documentation.summary),
       ("remarks", Json.strArr apiEnumValue.documentation.remarks),
       ("isBeta", .bool (apiEnumValue.documentation.releaseTag == ReleaseTag.Beta))])

/-- `ApiJsonGenerator.visitAstMember` (lines 229-235): the fallback for a
plain class member installs the bare string `'apiMember-' + declKind`. -/
def visitAstMember (apiMember : AstMember) (refObject : JsonObject) : JsonObject :=
  if apiMember.supportedName = false then refObject
  else jsAssign refObject apiMember.name
    (.str ("apiMember-" ++ toString apiMember.declKind))

/-- `ApiJsonGenerator.visitAstProperty` (lines 237-259); a `set` accessor
declaration is suppressed entirely (line 242). -/
def visitAstProperty (apiProperty : AstProperty) (refObject : JsonObject) : JsonObject :=
  if apiProperty.supportedName = false then refObject
  else if apiProperty.declKind == setAccessorSyntaxKind then refObject
  else
    jsAssign refObject apiProperty.name (.obj
      [("kind", .str (convertKindToJson AstItemKind.Property)),
       ("isOptional", .bool apiProperty.isOptional),
       ("isReadOnly", .bool apiProperty.isReadOnly),
       ("isStatic", .bool apiProperty.isStatic),
       ("type", .str apiProperty.type),
       ("deprecatedMessage", Json.strArr apiProperty.documentation.deprecatedMessage),
       ("summary", Json.strArr apiProperty.documentation.summary),
       ("remarks", Json.strArr apiProperty.documentation.remarks),
       ("isBeta", .bool (apiProperty.documentation.releaseTag == ReleaseTag.Beta))])

/-- `ApiJsonGenerator.visitAstModuleVariable` (lines 261-273); note there is
no `supportedName` check in this projector. -/
def visitAstModuleVariable (apiModuleVariable : AstModuleVariable)
    (refObject : JsonObject) : JsonObject :=
  jsAssign refObject apiModuleVariable.name (.obj
    [("kind", .str (convertKindToJson AstItemKind.ModuleVariable)),
     ("type", .str apiModuleVariable.type),
     ("value", .str apiModuleVariable.value),
     ("deprecatedMessage", Json.strArr apiModuleVariable.documentation.deprecatedMessage),
     ("summary", Json.strArr apiModuleVariable.documentation.summary),
     ("remarks", Json.strArr apiModuleVariable.documentation.remarks),
     ("isBeta", .bool (apiModuleVariable.documentation.releaseTag == ReleaseTag.Beta))])

/-- `ApiJsonGenerator.visitAstMethod` (lines 275-316): a method named
`__constructor` is emitted as a constructor node with a reduced field set;
every other method carries the full field set. -/
def visitAstMethod (apiMethod : AstMethod) (refObject : JsonObject) : JsonObject :=
  if apiMethod.supportedName = false then refObject
  else
    let docParameters := applyParams apiMethod.params apiMethod.documentation.parameters
    let newNode : Json :=
      if apiMethod.name == "__constructor" then
        .obj [("kind", .str (convertKindToJson AstItemKind.Constructor)),
              ("signature", .str apiMethod.declarationLine),
              ("parameters", parametersJson docParameters),
              ("deprecatedMessage", Json.strArr apiMethod.documentation.deprecatedMessage),
              ("summary", Json.strArr apiMethod.documentation.summary),
              ("remarks", Json.strArr apiMethod.documentation.remarks)]
      else
        .obj [("kind", .str (convertKindToJson AstItemKind.Method)),
              ("signature", .str apiMethod.declarationLine),
              ("accessModifier", .str (match apiMethod.accessModifier with
                | some m => m.lowerName
                | none => "")),
              ("isOptional", .bool apiMethod.isOptional),
              ("isStatic", .bool apiMethod.isStatic),
              ("returnValue", .obj
                [("type", .str apiMethod.returnType),
                 ("description", Json.strArr apiMethod.documentation.returnsMessage)]),
              ("parameters", parametersJson docParameters),
              ("deprecatedMessage", Json.strArr apiMethod.documentation.deprecatedMessage),
              ("summary", Json.strArr apiMethod.documentation.summary),
              ("remarks", Json.strArr apiMethod.documentation.remarks),
              ("isBeta", .bool (apiMethod.documentation.releaseTag == ReleaseTag.Beta))]
    jsAssign refObject apiMethod.name newNode

/-- `ApiJsonGenerator.visitAstFunction` (lines 166-190). -/
def visitAstFunction (apiFunction : AstFunction) (refObject : JsonObject) : JsonObject :=
  if apiFunction.supportedName = false then refObject
  else
    let docParameters := applyParams apiFunction.params apiFunction.documentation.parameters
    jsAssign refObject apiFunction.name (.obj
      [("kind", .str (convertKindToJson AstItemKind.Function)),
       ("returnValue", .obj
         [("type", .str apiFunction.returnType),
          ("description", Json.strArr apiFunction.documentation.returnsMessage)]),
       ("parameters", parametersJson docParameters),
       ("deprecatedMessage", Json.strArr apiFunction.documentation.deprecatedMessage),
       ("summary", Json.strArr apiFunction.documentation.summary),
       ("remarks", Json.strArr apiFunction.documentation.remarks),
       ("isBeta", .bool (apiFunction.documentation.releaseTag == ReleaseTag.Beta))])

mutual
/-- `ApiJsonGenerator.visit` (lines 75-86: the stability filter) combined
with the kind dispatch of `AstItemVisitor.visit` (modelled from the spec
§4.2, the class lives outside the sources given here) and the four
container projectors `visitAstPackage` (lines 192-205), `visitAstNamespace`
(lines 207-227), `visitAstStructuredType` (lines 88-122) and `visitAstEnum`
(lines 124-143), whose member recursion goes back through `visit`.
The `c` argument threads the static `_methodCounter`; the result pairs its
final value with the updated `refObject`. -/
def visit : AstItem → Nat → JsonObject → Nat × JsonObject
  | .package _ _ documentation members, c, refObject =>
    if releaseTagAdmitted documentation.releaseTag = false then (c, refObject)
    else
      let r1 := jsAssign refObject "kind" (.str (convertKindToJson AstItemKind.Package))
      let r2 := jsAssign r1 "summary" (Json.strArr documentation.summary)
      let r3 := jsAssign r2 "remarks" (Json.strArr documentation.remarks)
      let mres := visitMembers members c []
      (mres.1, jsAssign r3 "exports" (.obj mres.2))
  | .namespaceDecl name supportedName documentation members, c, refObject =>
    if releaseTagAdmitted documentation.releaseTag = false then (c, refObject)
    else if supportedName = false then (c, refObject)
    else
      let mres := visitMembers members c []
      (mres.1, jsAssign refObject name (.obj
        [("kind", .str (convertKindToJson AstItemKind.Namespace)),
         ("deprecatedMessage", Json.strArr documentation.deprecatedMessage),
         ("summary", Json.strArr documentation.summary),
         ("remarks", Json.strArr documentation.remarks),
         ("isBeta", .bool (documentation.releaseTag == ReleaseTag.Beta)),
         ("exports", .obj mres.2)]))
  | .structuredType name supportedName documentation kind extendsTypes
      implementsTypes typeParameters members, c, refObject =>
    if releaseTagAdmitted documentation.releaseTag = false then (c, refObject)
    else if supportedName = false then (c, refObject)
    else
      -- line 110 resets the static `_methodCounter` to 0 before the members
      let mres := visitMembers members 0 []
      let baseFields : List (String × Json) :=
        [("kind", .str (structuredTypeKindString kind)),
         ("extends", .str (extendsTypes.getD "")),
         ("implements", .str (implementsTypes.getD "")),
         ("typeParameters", Json.strArr (typeParameters.getD [])),
         ("deprecatedMessage", Json.strArr documentation.deprecatedMessage),
         ("summary", Json.strArr documentation.summary),
         ("remarks", Json.strArr documentation.remarks),
         ("isBeta", .bool (documentation.releaseTag == ReleaseTag.Beta))]
      let node : Json := .obj (if members.isEmpty then baseFields
        else baseFields ++ [("members", .obj mres.2)])
      (mres.1, jsAssign refObject name node)
  | .enumDecl name supportedName documentation members, c, refObject =>
    if releaseTagAdmitted documentation.releaseTag = false then (c, refObject)
    else if supportedName = false then (c, refObject)
    else
      let vres := visitMembers members c []
      (vres.1, jsAssign refObject name (.obj
        [("kind", .str (convertKindToJson AstItemKind.Enum)),
         ("values", .obj vres.2),
         ("deprecatedMessage", Json.strArr documentation.deprecatedMessage),
         ("summary", Json.strArr documentation.summary),
         ("remarks", Json.strArr documentation.remarks),
         ("isBeta", .bool (documentation.releaseTag == ReleaseTag.Beta))]))
  | .enumValue v, c, refObject =>
    if releaseTagAdmitted v.documentation.releaseTag = false then (c, refObject)
    else (c, visitAstEnumValue v refObject)
  | .functionDecl f, c, refObject =>
    if releaseTagAdmitted f.documentation.releaseTag = false then (c, refObject)
    else (c, visitAstFunction f refObject)
  | .member m, c, refObject =>
    if releaseTagAdmitted m.documentation.releaseTag = false then (c, refObject)
    else (c, visitAstMember m refObject)
  | .property p, c, refObject =>
    if releaseTagAdmitted p.documentation.releaseTag = false then (c, refObject)
    else (c, visitAstProperty p refObject)
  | .moduleVariable v, c, refObject =>
    if releaseTagAdmitted v.documentation.releaseTag = false then (c, refObject)
    else (c, visitAstModuleVariable v refObject)
  | .method m, c, refObject =>
    if releaseTagAdmitted m.documentation.releaseTag = false then (c, refObject)
    else (c, visitAstMethod m refObject)
/-- The member loops of the container projectors: each sorted member is
visited in turn, threading the counter state and the shared members object. -/
def visitMembers : List AstItem → Nat → JsonObject → Nat × JsonObject
  | [], c, refObject => (c, refObject)
  | item :: rest, c, refObject =>
    let r := visit item c refObject
    visitMembers rest r.1 r.2
end

/-- One generator run on a fresh instance: `jsonOutput` starts out as the
empty object `\x7b\x7d` and the package root is visited into it
(line 58).  `methodCounter` is whatever value the static `_methodCounter`
holds when the run starts. -/
def runGenerator (methodCounter : Nat) (pkg : AstItem) : JsonObject :=
  (visit pkg methodCounter []).2

/-- Outcome of `writeJsonFile`: silent success, or the thrown fatal error. -/
inductive WriteOutcome where
  | success
  | fatalError (message : String)
deriving DecidableEq, Repr

/-- Observable result of `writeJsonFile`: the `JsonFile.save` call (external
I/O modelled as data), the `console.log` output, and the outcome. -/
structure WriteResult where
  savedFile : Option (String × JsonObject)
  loggedError : Option String
  outcome : WriteOutcome

/-- `os.EOL`, modelled as a newline. -/
def osEOL : String := "\n"

/-- Collect the final slash-separated segment of a character list. -/
def lastSegment : List Char → List Char → List Char
  | [], acc => acc
  | c :: rest, acc => if c = '/' then lastSegment rest [] else lastSegment rest (acc ++ [c])

/-- `path.basename`: the final segment of a slash-separated path. -/
def pathBasename (p : String) : String := String.mk (lastSegment p.data [])

/-- The fixed text of the schema-mismatch error message (lines 65-66). -/
def schemaMismatchText : String :=
  " does not conform to the expected schema -- please report this API Extractor bug:"

/-- `ApiJsonGenerator.writeJsonFile` (lines 57-72): visit the package into
`jsonOutput`, save the output file, then validate against the JSON schema;
a validation failure logs and throws an error built from the report file's
basename and the validator's diagnostic details.  The external schema
validator is passed as a function returning the diagnostic details of the
first failure, or nothing on success. -/
def writeJsonFile (methodCounter : Nat) (reportFilename : String) (pkg : AstItem)
    (validate : JsonObject → Option String) : WriteResult :=
  let doc := runGenerator methodCounter pkg
  match validate doc with
  | none =>
    { savedFile := some (reportFilename, doc)
      loggedError := none
      outcome := .success }
  | some details =>
    let errorMessage := pathBasename reportFilename ++ schemaMismatchText ++ osEOL ++ details
    { savedFile := some (reportFilename, doc)
      loggedError := some (osEOL ++ "ERROR: " ++ errorMessage ++ osEOL ++ osEOL)
      outcome := .fatalError errorMessage }

/-- All field and container keys the projectors ever write with a fixed
(schema-determined) name, as opposed to keys taken from a declaration's or
parameter's name. -/
def fixedSchemaKeys : List String :=
  ["kind", "extends", "implements", "typeParameters", "deprecatedMessage",
   "summary", "remarks", "isBeta", "members", "values", "exports", "value",
   "type", "isOptional", "isReadOnly", "isStatic", "returnValue",
   "parameters", "signature", "accessModifier", "description", "isSpread",
   "name"]

mutual
/-- The names a subtree is allowed to contribute as document keys: nothing
from a stability-rejected node; otherwise the node's own name, its
documentation's parameter names (for callable kinds), and recursively the
names of its members. -/
def admittedNames : AstItem → List String
  | .package n _ d ms =>
    if releaseTagAdmitted d.releaseTag = false then [] else n :: admittedNamesList ms
  | .namespaceDecl n _ d ms =>
    if releaseTagAdmitted d.releaseTag = false then [] else n :: admittedNamesList ms
  | .structuredType n _ d _ _ _ _ ms =>
    if releaseTagAdmitted d.releaseTag = false then [] else n :: admittedNamesList ms
  | .enumDecl n _ d ms =>
    if releaseTagAdmitted d.releaseTag = false then [] else n :: admittedNamesList ms
  | .enumValue v =>
    if releaseTagAdmitted v.documentation.releaseTag = false then [] else [v.name]
  | .functionDecl f =>
    if releaseTagAdmitted f.documentation.releaseTag = false then []
    else f.name :: f.documentation.parameters.map Prod.fst
  | .member m =>
    if releaseTagAdmitted m.documentation.releaseTag = false then [] else [m.name]
  | .property p =>
    if releaseTagAdmitted p.documentation.releaseTag = false then [] else [p.name]
  | .moduleVariable v =>
    if releaseTagAdmitted v.documentation.releaseTag = false then [] else [v.name]
  | .method m =>
    if releaseTagAdmitted m.documentation.releaseTag = false then []
    else m.name :: m.documentation.parameters.map Prod.fst
/-- Allowed key names contributed by a list of sibling members. -/
def admittedNamesList : List AstItem → List String
  | [] => []
  | i :: rest => admittedNames i ++ admittedNamesList rest
end


/-- Descend along a path of object keys inside a JSON value. -/
def lookupPath : Json → List String → Option Json
  | j, [] => some j
  | .obj fs, p :: rest =>
    match lookupKey fs p with
    | some v => lookupPath v rest
    | none => none
  | _, _ :: _ => none

/-- The ordered field names of the entry stored under `k`, when that entry
exists and is an object (`some []` for a non-object entry such as a bare
string). -/
def fieldSet (fs : JsonObject) (k : String) : Option (List String) :=
  (lookupKey fs k).map objKeys

/-- Documentation with a given release tag and no text blocks. -/
def docWith (tag : ReleaseTag) : ApiDocumentation :=
  { releaseTag := tag
    summary := []
    remarks := []
    deprecatedMessage := []
    returnsMessage := []
    parameters := [] }

/-- A public plain class member (neither method nor property nor accessor). -/
def samplePlainMember : AstMember :=
  { name := "plainMember"
    supportedName := true
    documentation := docWith .Public
    declKind := 201 }

/-- A public class whose only member is a plain member. -/
def sampleWidgetClass : AstItem :=
  .structuredType "Widget" true (docWith .Public) .Class none none none
    [.member samplePlainMember]

/-- A package exporting `Widget`. -/
def samplePkg : AstItem := .package "sample" true (docWith .None) [sampleWidgetClass]

/-- A public property that sits inside an internal class. -/
def leakedProp : AstProperty :=
  { name := "leakedProp"
    supportedName := true
    documentation := docWith .Public
    declKind := 148
    isOptional := false
    isReadOnly := false
    isStatic := false
    type := "number" }

/-- An alpha-tagged class containing a public property. -/
def secretClass : AstItem :=
  .structuredType "SecretClass" true (docWith .Alpha) .Class none none none
    [.property leakedProp]

/-- A package exporting only an alpha-tagged class. -/
def pkgWithSecret : AstItem := .package "sample2" true (docWith .None) [secretClass]

/-- A plain member used to exhibit the placeholder shape. -/
def fallbackMember : AstMember :=
  { name := "fallbackMember"
    supportedName := true
    documentation := docWith .Public
    declKind := 165 }

/-- The `get` accessor declaration of a `size` property. -/
def sampleGetter : AstProperty :=
  { name := "size"
    supportedName := true
    documentation := docWith .Public
    declKind := 149
    isOptional := false
    isReadOnly := false
    isStatic := false
    type := "number" }

/-- The `set` accessor declaration of the same `size` property. -/
def sampleSetter : AstProperty :=
  { name := "size"
    supportedName := true
    documentation := docWith .Public
    declKind := 150
    isOptional := false
    isReadOnly := false
    isStatic := false
    type := "number" }

/-- A constructor member (reserved synthetic name). -/
def sampleCtor : AstMethod :=
  { name := "__constructor"
    supportedName := true
    documentation := docWith .Public
    params := []
    accessModifier := none
    isOptional := false
    isStatic := false
    returnType := ""
    declarationLine := "constructor();" }

/-- An ordinary public method. -/
def sampleMethod : AstMethod :=
  { name := "render"
    supportedName := true
    documentation := docWith .Public
    params := []
    accessModifier := some .Public
    isOptional := false
    isStatic := false
    returnType := "string"
    declarationLine := "public render(): string;" }

/-- An enum value declared with an explicit initializer `A = 5`. -/
def sampleEnumValueInit : AstEnumValue :=
  { name := "A"
    supportedName := true
    documentation := docWith .Public
    declTokens := ["A", "=", "5"] }

/-- An enum value declared with no initializer. -/
def sampleEnumValueNoInit : AstEnumValue :=
  { name := "B"
    supportedName := true
    documentation := docWith .Public
    declTokens := ["B"] }

/-- A module-level variable whose name fails the naming-support predicate. -/
def oddModuleVar : AstModuleVariable :=
  { name := "$odd"
    supportedName := false
    documentation := docWith .Public
    type := "number"
    value := "42" }

/-- A package root whose name fails the naming-support predicate. -/
def oddPkg : AstItem := .package "odd-pkg" false (docWith .None) []

/-- An enum whose name fails the naming-support predicate. -/
def oddEnum : AstItem := .enumDecl "$oddEnum" false (docWith .Public) []

@[simp]
theorem mentionsJson_str (s k : String) : mentionsJson (.str s) k = false := rfl

@[simp]
theorem mentionsJson_bool (b : Bool) (k : String) : mentionsJson (.bool b) k = false := rfl

@[simp]
theorem mentionsJson_obj (fs : List (String × Json)) (k : String) :
    mentionsJson (.obj fs) k = mentionsObj fs k := rfl

@[simp]
theorem mentionsObj_nil (k : String) : mentionsObj [] k = false := rfl

@[simp]
theorem mentionsObj_cons (a : String) (b : Json) (fs : List (String × Json)) (k : String) :
    mentionsObj ((a, b) :: fs) k = (a == k || mentionsJson b k || mentionsObj fs k) := rfl

theorem mentionsObj_append (l1 l2 : List (String × Json)) (k : String) :
    mentionsObj (l1 ++ l2) k = (mentionsObj l1 k || mentionsObj l2 k) := by
  induction l1 with
  | nil => simp [mentionsObj]
  | cons p rest ih =>
    obtain ⟨a, b⟩ := p
    simp [mentionsObj, ih, Bool.or_assoc]

theorem mentions_strArr (l : List String) (k : String) :
    mentionsJson (Json.strArr l) k = false := by
  induction l with
  | nil => simp [Json.strArr, mentionsJson, mentionsArr]
  | cons s rest ih =>
    simp [Json.strArr, mentionsJson, mentionsArr] at ih ⊢
    exact ih

theorem containsStr_ne (l : List String) (k s : String)
    (hk : containsStr l k = false) (hs : containsStr l s = true) :
    (s == k) = false := by
  by_cases h : (s == k) = true
  · rw [beq_iff_eq] at h
    subst h
    rw [hs] at hk
    cases hk
  · simpa using h

theorem mentionsObj_jsAssignReplace (fs : JsonObject) (key : String) (v : Json) (k : String)
    (href : mentionsObj fs k = false) (hkey : (key == k) = false)
    (hv : mentionsJson v k = false) :
    mentionsObj (jsAssignReplace fs key v) k = false := by
  induction fs with
  | nil => simp [jsAssignReplace, mentionsObj]
  | cons p rest ih =>
    obtain ⟨a, b⟩ := p
    simp only [mentionsObj, Bool.or_eq_false_iff] at href
    obtain ⟨⟨ha, hb⟩, hrest⟩ := href
    simp only [jsAssignReplace]
    by_cases hak : (a == key) = true
    · rw [if_pos hak]
      simp only [mentionsObj, Bool.or_eq_false_iff]
      exact ⟨⟨hkey, hv⟩, ih hrest⟩
    · rw [if_neg hak]
      simp only [mentionsObj, Bool.or_eq_false_iff]
      exact ⟨⟨ha, hb⟩, ih hrest⟩

theorem mentionsObj_jsAssign (fs : JsonObject) (key : String) (v : Json) (k : String)
    (href : mentionsObj fs k = false) (hkey : (key == k) = false)
    (hv : mentionsJson v k = false) :
    mentionsObj (jsAssign fs key v) k = false := by
  unfold jsAssign
  split
  · exact mentionsObj_jsAssignReplace fs key v k href hkey hv
  · rw [mentionsObj_append]
    simp [mentionsObj, href, hkey, hv]

theorem lookupKey_jsAssignReplace_self (fs : JsonObject) (key : String) (v : Json) :
    hasKey fs key = true → lookupKey (jsAssignReplace fs key v) key = some v := by
  induction fs with
  | nil => intro h; simp [hasKey] at h
  | cons p rest ih =>
    obtain ⟨a, b⟩ := p
    intro h
    simp only [hasKey, Bool.or_eq_true] at h
    simp only [jsAssignReplace]
    by_cases hak : (a == key) = true
    · rw [if_pos hak]
      simp [lookupKey]
    · rw [if_neg hak]
      simp only [lookupKey]
      rw [if_neg hak]
      rcases h with h | h
      · exact absurd h hak
      · exact ih h

theorem lookupKey_append_self (fs : JsonObject) (key : String) (v : Json) :
    hasKey fs key = false → lookupKey (fs ++ [(key, v)]) key = some v := by
  induction fs with
  | nil => intro _; simp [lookupKey]
  | cons p rest ih =>
    obtain ⟨a, b⟩ := p
    intro h
    simp only [hasKey, Bool.or_eq_false_iff] at h
    simp only [List.cons_append, lookupKey]
    rw [if_neg (by simp [h.1])]
    exact ih h.2

theorem lookupKey_jsAssign_self (fs : JsonObject) (key : String) (v : Json) :
    lookupKey (jsAssign fs key v) key = some v := by
  unfold jsAssign
  split
  next h => exact lookupKey_jsAssignReplace_self fs key v h
  next h => exact lookupKey_append_self fs key v (by simpa using h)

theorem lookupKey_jsAssignReplace_ne (fs : JsonObject) (key : String) (v : Json) (k : String)
    (hk : (key == k) = false) :
    lookupKey (jsAssignReplace fs key v) k = lookupKey fs k := by
  induction fs with
  | nil => simp [jsAssignReplace]
  | cons p rest ih =>
    obtain ⟨a, b⟩ := p
    simp only [jsAssignReplace]
    by_cases hak : (a == key) = true
    · rw [if_pos hak]
      have ha : a = key := by rwa [beq_iff_eq] at hak
      subst ha
      simp only [lookupKey]
      rw [if_neg (by simp [hk]), if_neg (by simp [hk])]
      exact ih
    · rw [if_neg hak]
      simp only [lookupKey]
      by_cases hakk : (a == k) = true
      · rw [if_pos hakk, if_pos hakk]
      · rw [if_neg hakk, if_neg hakk]
        exact ih

theorem lookupKey_append_ne (fs : JsonObject) (key : String) (v : Json) (k : String)
    (hk : (key == k) = false) :
    lookupKey (fs ++ [(key, v)]) k = lookupKey fs k := by
  induction fs with
  | nil => simp [lookupKey, hk]
  | cons p rest ih =>
    obtain ⟨a, b⟩ := p
    simp only [List.cons_append, lookupKey]
    by_cases hakk : (a == k) = true
    · rw [if_pos hakk, if_pos hakk]
    · rw [if_neg hakk, if_neg hakk]
      exact ih

theorem lookupKey_jsAssign_ne (fs : JsonObject) (key : String) (v : Json) (k : String)
    (hk : (key == k) = false) :
    lookupKey (jsAssign fs key v) k = lookupKey fs k := by
  unfold jsAssign
  split
  · exact lookupKey_jsAssignReplace_ne fs key v k hk
  · exact lookupKey_append_ne fs key v k hk

theorem countKey_append (l1 l2 : JsonObject) (k : String) :
    countKey (l1 ++ l2) k = countKey l1 k + countKey l2 k := by
  induction l1 with
  | nil => simp [countKey]
  | cons p rest ih =>
    obtain ⟨a, b⟩ := p
    simp [countKey, ih]
    omega

theorem countKey_eq_zero (fs : JsonObject) (k : String) :
    hasKey fs k = false → countKey fs k = 0 := by
  induction fs with
  | nil => intro _; simp [countKey]
  | cons p rest ih =>
    obtain ⟨a, b⟩ := p
    intro h
    simp only [hasKey, Bool.or_eq_false_iff] at h
    simp only [countKey]
    rw [if_neg (by simp [h.1])]
    simp [ih h.2]

theorem countKey_jsAssign_new (fs : JsonObject) (key : String) (v : Json)
    (h : hasKey fs key = false) :
    countKey (jsAssign fs key v) key = 1 := by
  unfold jsAssign
  rw [if_neg (by simp [h])]
  rw [countKey_append, countKey_eq_zero fs key h]
  simp [countKey]

theorem map_fst_paramStep (d : List (String × IParam)) (p : AstParameter) :
    (d.map (fun kv => if kv.1 == p.name then (kv.1, visitApiParam p kv.2) else kv)).map
        Prod.fst = d.map Prod.fst := by
  induction d with
  | nil => simp
  | cons kv rest ih =>
    obtain ⟨a, b⟩ := kv
    simp only [List.map_cons]
    rw [ih]
    congr 1
    show (if (a == p.name) = true then (a, visitApiParam p b) else (a, b)).1 = a
    split
    · rfl
    · rfl

theorem applyParams_keys (params : List AstParameter) (docParams : List (String × IParam)) :
    (applyParams params docParams).map Prod.fst = docParams.map Prod.fst := by
  induction params generalizing docParams with
  | nil => simp [applyParams]
  | cons p rest ih =>
    simp only [applyParams]
    rw [ih, map_fst_paramStep]

theorem mentions_parametersJson (l : List (String × IParam)) (k : String)
    (h1 : ("name" == k) = false) (h2 : ("description" == k) = false)
    (h3 : ("isOptional" == k) = false) (h4 : ("isSpread" == k) = false)
    (h5 : ("type" == k) = false)
    (hl : containsStr (l.map Prod.fst) k = false) :
    mentionsJson (parametersJson l) k = false := by
  induction l with
  | nil => simp [parametersJson, mentionsJson, mentionsObj]
  | cons kv rest ih =>
    obtain ⟨a, b⟩ := kv
    simp only [List.map_cons, containsStr, Bool.or_eq_false_iff] at hl
    simp only [parametersJson, List.map_cons, mentionsJson_obj, mentionsObj_cons,
      Bool.or_eq_false_iff]
    refine ⟨⟨hl.1, ?_⟩, ?_⟩
    · simp [IParam.toJson, mentions_strArr, h1, h2, h3, h4, h5]
    · have hr := ih hl.2
      simpa [parametersJson, mentionsJson_obj] using hr

mutual
theorem visit_snd_counter_eq (item : AstItem) (c1 c2 : Nat) (ref : JsonObject) :
    (visit item c1 ref).2 = (visit item c2 ref).2 := by
  cases item with
  | package n s d ms =>
    by_cases h : releaseTagAdmitted d.releaseTag = false
    · simp [visit, h]
    · simp [visit, h, visitMembers_snd_counter_eq ms c1 c2 []]
  | namespaceDecl n s d ms =>
    by_cases h : releaseTagAdmitted d.releaseTag = false
    · simp [visit, h]
    · by_cases hs : s = false
      · simp [visit, h, hs]
      · simp [visit, h, hs, visitMembers_snd_counter_eq ms c1 c2 []]
  | structuredType n s d kind e i tp ms =>
    by_cases h : releaseTagAdmitted d.releaseTag = false
    · simp [visit, h]
    · by_cases hs : s = false
      · simp [visit, h, hs]
      · simp [visit, h, hs]
  | enumDecl n s d ms =>
    by_cases h : releaseTagAdmitted d.releaseTag = false
    · simp [visit, h]
    · by_cases hs : s = false
      · simp [visit, h, hs]
      · simp [visit, h, hs, visitMembers_snd_counter_eq ms c1 c2 []]
  | enumValue v =>
    by_cases h : releaseTagAdmitted v.documentation.releaseTag = false
    · simp [visit, h]
    · simp [visit, h]
  | functionDecl f =>
    by_cases h : releaseTagAdmitted f.documentation.releaseTag = false
    · simp [visit, h]
    · simp [visit, h]
  | member m =>
    by_cases h : releaseTagAdmitted m.documentation.releaseTag = false
    · simp [visit, h]
    · simp [visit, h]
  | property p =>
    by_cases h : releaseTagAdmitted p.documentation.releaseTag = false
    · simp [visit, h]
    · simp [visit, h]
  | moduleVariable v =>
    by_cases h : releaseTagAdmitted v.documentation.releaseTag = false
    · simp [visit, h]
    · simp [visit, h]
  | method m =>
    by_cases h : releaseTagAdmitted m.documentation.releaseTag = false
    · simp [visit, h]
    · simp [visit, h]
theorem visitMembers_snd_counter_eq (items : List AstItem) (c1 c2 : Nat) (ref : JsonObject) :
    (visitMembers items c1 ref).2 = (visitMembers items c2 ref).2 := by
  cases items with
  | nil => simp [visitMembers]
  | cons i rest =>
    simp only [visitMembers]
    have h2 := visit_snd_counter_eq i c1 c2 ref
    rw [h2]
    exact visitMembers_snd_counter_eq rest (visit i c1 ref).1 (visit i c2 ref).1 (visit i c2 ref).2
end

theorem containsStr_append (l1 l2 : List String) (k : String) :
    containsStr (l1 ++ l2) k = (containsStr l1 k || containsStr l2 k) := by
  induction l1 with
  | nil => simp [containsStr]
  | cons s rest ih =>
    simp [containsStr, ih, Bool.or_assoc]

mutual
/-- Core soundness induction: a key that is neither one of the fixed schema
keys nor one of the names an admitted part of the subtree may contribute
never appears anywhere in the output object, provided it did not appear in
the incoming object. -/
theorem visit_key_absent (item : AstItem) (c : Nat) (ref : JsonObject) (k : String)
    (hfix : containsStr fixedSchemaKeys k = false)
    (hadm : containsStr (admittedNames item) k = false)
    (href : mentionsObj ref k = false) :
    mentionsObj (visit item c ref).2 k = false := by
  have hne : ∀ s2 : String, containsStr fixedSchemaKeys s2 = true → (s2 == k) = false :=
    fun s2 hs2 => containsStr_ne fixedSchemaKeys k s2 hfix hs2
  cases item with
  | package n s d ms =>
    simp only [visit]
    by_cases htag : releaseTagAdmitted d.releaseTag = false
    · rw [if_pos htag]
      exact href
    · rw [if_neg htag]
      simp only [admittedNames, if_neg htag, containsStr, Bool.or_eq_false_iff] at hadm
      have hmem := visitMembers_key_absent ms c [] k hfix hadm.2 rfl
      have r1 : mentionsObj (jsAssign ref "kind"
          (.str (convertKindToJson AstItemKind.Package))) k = false :=
        mentionsObj_jsAssign _ _ _ _ href (hne "kind" rfl) rfl
      have r2 := mentionsObj_jsAssign _ "summary" (Json.strArr d.summary) k r1
        (hne "summary" rfl) (mentions_strArr _ _)
      have r3 := mentionsObj_jsAssign _ "remarks" (Json.strArr d.remarks) k r2
        (hne "remarks" rfl) (mentions_strArr _ _)
      have r4 := mentionsObj_jsAssign _ "exports" (.obj (visitMembers ms c []).2) k r3
        (hne "exports" rfl) (by simpa using hmem)
      exact r4
  | namespaceDecl n s d ms =>
    simp only [visit]
    by_cases htag : releaseTagAdmitted d.releaseTag = false
    · rw [if_pos htag]
      exact href
    · rw [if_neg htag]
      by_cases hsn : s = false
      · rw [if_pos hsn]
        exact href
      · rw [if_neg hsn]
        simp only [admittedNames, if_neg htag, containsStr, Bool.or_eq_false_iff] at hadm
        have hmem := visitMembers_key_absent ms c [] k hfix hadm.2 rfl
        refine mentionsObj_jsAssign _ _ _ _ href hadm.1 ?_
        simp [hne "kind" rfl, hne "deprecatedMessage" rfl, hne "summary" rfl,
          hne "remarks" rfl, hne "isBeta" rfl, hne "exports" rfl, mentions_strArr, hmem]
  | structuredType n s d kind e i tp ms =>
    simp only [visit]
    by_cases htag : releaseTagAdmitted d.releaseTag = false
    · rw [if_pos htag]
      exact href
    · rw [if_neg htag]
      by_cases hsn : s = false
      · rw [if_pos hsn]
        exact href
      · rw [if_neg hsn]
        simp only [admittedNames, if_neg htag, containsStr, Bool.or_eq_false_iff] at hadm
        have hmem := visitMembers_key_absent ms 0 [] k hfix hadm.2 rfl
        refine mentionsObj_jsAssign _ _ _ _ href hadm.1 ?_
        by_cases hms : ms.isEmpty
        · simp [hms, hne "kind" rfl, hne "extends" rfl, hne "implements" rfl,
            hne "typeParameters" rfl, hne "deprecatedMessage" rfl, hne "summary" rfl,
            hne "remarks" rfl, hne "isBeta" rfl, mentions_strArr]
        · simp [hms, mentionsObj_append, hne "kind" rfl, hne "extends" rfl,
            hne "implements" rfl, hne "typeParameters" rfl, hne "deprecatedMessage" rfl,
            hne "summary" rfl, hne "remarks" rfl, hne "isBeta" rfl, hne "members" rfl,
            mentions_strArr, hmem]
  | enumDecl n s d ms =>
    simp only [visit]
    by_cases htag : releaseTagAdmitted d.releaseTag = false
    · rw [if_pos htag]
      exact href
    · rw [if_neg htag]
      by_cases hsn : s = false
      · rw [if_pos hsn]
        exact href
      · rw [if_neg hsn]
        simp only [admittedNames, if_neg htag, containsStr, Bool.or_eq_false_iff] at hadm
        have hmem := visitMembers_key_absent ms c [] k hfix hadm.2 rfl
        refine mentionsObj_jsAssign _ _ _ _ href hadm.1 ?_
        simp [hne "kind" rfl, hne "values" rfl, hne "deprecatedMessage" rfl,
          hne "summary" rfl, hne "remarks" rfl, hne "isBeta" rfl, mentions_strArr, hmem]
  | enumValue v =>
    simp only [visit]
    by_cases htag : releaseTagAdmitted v.documentation.releaseTag = false
    · rw [if_pos htag]
      exact href
    · rw [if_neg htag]
      simp only [admittedNames, if_neg htag, containsStr, Bool.or_false] at hadm
      show mentionsObj (visitAstEnumValue v ref) k = false
      unfold visitAstEnumValue
      by_cases hsn : v.supportedName = false
      · rw [if_pos hsn]
        exact href
      · rw [if_neg hsn]
        refine mentionsObj_jsAssign _ _ _ _ href hadm ?_
        simp [hne "kind" rfl, hne "value" rfl, hne "deprecatedMessage" rfl,
          hne "summary" rfl, hne "remarks" rfl, hne "isBeta" rfl, mentions_strArr]
  | functionDecl f =>
    simp only [visit]
    by_cases htag : releaseTagAdmitted f.documentation.releaseTag = false
    · rw [if_pos htag]
      exact href
    · rw [if_neg htag]
      simp only [admittedNames, if_neg htag, containsStr, Bool.or_eq_false_iff] at hadm
      show mentionsObj (visitAstFunction f ref) k = false
      unfold visitAstFunction
      by_cases hsn : f.supportedName = false
      · rw [if_pos hsn]
        exact href
      · rw [if_neg hsn]
        have hpar : mentionsJson (parametersJson
            (applyParams f.params f.documentation.parameters)) k = false :=
          mentions_parametersJson _ _ (hne "name" rfl) (hne "description" rfl)
            (hne "isOptional" rfl) (hne "isSpread" rfl) (hne "type" rfl)
            (by rw [applyParams_keys]; exact hadm.2)
        refine mentionsObj_jsAssign _ _ _ _ href hadm.1 ?_
        simp [hne "kind" rfl, hne "returnValue" rfl, hne "type" rfl,
          hne "description" rfl, hne "parameters" rfl, hne "deprecatedMessage" rfl,
          hne "summary" rfl, hne "remarks" rfl, hne "isBeta" rfl, mentions_strArr, hpar]
  | member m =>
    simp only [visit]
    by_cases htag : releaseTagAdmitted m.documentation.releaseTag = false
    · rw [if_pos htag]
      exact href
    · rw [if_neg htag]
      simp only [admittedNames, if_neg htag, containsStr, Bool.or_false] at hadm
      show mentionsObj (visitAstMember m ref) k = false
      unfold visitAstMember
      by_cases hsn : m.supportedName = false
      · rw [if_pos hsn]
        exact href
      · rw [if_neg hsn]
        exact mentionsObj_jsAssign _ _ _ _ href hadm rfl
  | property p =>
    simp only [visit]
    by_cases htag : releaseTagAdmitted p.documentation.releaseTag = false
    · rw [if_pos htag]
      exact href
    · rw [if_neg htag]
      simp only [admittedNames, if_neg htag, containsStr, Bool.or_false] at hadm
      show mentionsObj (visitAstProperty p ref) k = false
      unfold visitAstProperty
      by_cases hsn : p.supportedName = false
      · rw [if_pos hsn]
        exact href
      · rw [if_neg hsn]
        by_cases hsk : (p.declKind == setAccessorSyntaxKind) = true
        · rw [if_pos hsk]
          exact href
        · rw [if_neg hsk]
          refine mentionsObj_jsAssign _ _ _ _ href hadm ?_
          simp [hne "kind" rfl, hne "isOptional" rfl, hne "isReadOnly" rfl,
            hne "isStatic" rfl, hne "type" rfl, hne "deprecatedMessage" rfl,
            hne "summary" rfl, hne "remarks" rfl, hne "isBeta" rfl, mentions_strArr]
  | moduleVariable v =>
    simp only [visit]
    by_cases htag : releaseTagAdmitted v.documentation.releaseTag = false
    · rw [if_pos htag]
      exact href
    · rw [if_neg htag]
      simp only [admittedNames, if_neg htag, containsStr, Bool.or_false] at hadm
      show mentionsObj (visitAstModuleVariable v ref) k = false
      unfold visitAstModuleVariable
      refine mentionsObj_jsAssign _ _ _ _ href hadm ?_
      simp [hne "kind" rfl, hne "type" rfl, hne "value" rfl,
        hne "deprecatedMessage" rfl, hne "summary" rfl, hne "remarks" rfl,
        hne "isBeta" rfl, mentions_strArr]
  | method m =>
    simp only [visit]
    by_cases htag : releaseTagAdmitted m.documentation.releaseTag = false
    · rw [if_pos htag]
      exact href
    · rw [if_neg htag]
      simp only [admittedNames, if_neg htag, containsStr, Bool.or_eq_false_iff] at hadm
      show mentionsObj (visitAstMethod m ref) k = false
      unfold visitAstMethod
      by_cases hsn : m.supportedName = false
      · rw [if_pos hsn]
        exact href
      · rw [if_neg hsn]
        have hpar : mentionsJson (parametersJson
            (applyParams m.params m.documentation.parameters)) k = false :=
          mentions_parametersJson _ _ (hne "name" rfl) (hne "description" rfl)
            (hne "isOptional" rfl) (hne "isSpread" rfl) (hne "type" rfl)
            (by rw [applyParams_keys]; exact hadm.2)
        by_cases hc : (m.name == "__constructor") = true
        · refine mentionsObj_jsAssign _ _ _ _ href hadm.1 ?_
          simp [hc, hne "kind" rfl, hne "signature" rfl, hne "parameters" rfl,
            hne "deprecatedMessage" rfl, hne "summary" rfl, hne "remarks" rfl,
            mentions_strArr, hpar]
        · refine mentionsObj_jsAssign _ _ _ _ href hadm.1 ?_
          simp [hc, hne "kind" rfl, hne "signature" rfl, hne "accessModifier" rfl,
            hne "isOptional" rfl, hne "isStatic" rfl, hne "returnValue" rfl,
            hne "type" rfl, hne "description" rfl, hne "parameters" rfl,
            hne "deprecatedMessage" rfl, hne "summary" rfl, hne "remarks" rfl,
            hne "isBeta" rfl, mentions_strArr, hpar]
/-- Sibling-list version of the soundness induction. -/
theorem visitMembers_key_absent (items : List AstItem) (c : Nat) (ref : JsonObject) (k : String)
    (hfix : containsStr fixedSchemaKeys k = false)
    (hadm : containsStr (admittedNamesList items) k = false)
    (href : mentionsObj ref k = false) :
    mentionsObj (visitMembers items c ref).2 k = false := by
  cases items with
  | nil => simpa [visitMembers] using href
  | cons i rest =>
    simp only [visitMembers]
    simp only [admittedNamesList, containsStr_append, Bool.or_eq_false_iff] at hadm
    exact visitMembers_key_absent rest (visit i c ref).1 (visit i c ref).2 k hfix hadm.2
      (visit_key_absent i c ref k hfix hadm.1 href)
end

/-- C1: a node whose stability tag is Alpha or Internal produces no output
and no recursion (the visitor returns the reference object untouched), so no
keyed entry for it — nor for any member of it, even one tagged Public — can
appear anywhere in the output document (key-absence for every key the
admitted part of the tree cannot contribute); nodes tagged None, Beta or
Public are passed on to their kind projector. -/
theorem C1_stability_filter (item : AstItem) (c : Nat) (ref : JsonObject) (k : String) :
    ((item.documentation.releaseTag = ReleaseTag.Alpha
        ∨ item.documentation.releaseTag = ReleaseTag.Internal) →
      visit item c ref = (c, ref))
    ∧ (releaseTagAdmitted item.documentation.releaseTag = true →
        match item with
        | .enumValue v => visit item c ref = (c, visitAstEnumValue v ref)
        | .functionDecl f => visit item c ref = (c, visitAstFunction f ref)
        | .member m => visit item c ref = (c, visitAstMember m ref)
        | .property p => visit item c ref = (c, visitAstProperty p ref)
        | .moduleVariable v => visit item c ref = (c, visitAstModuleVariable v ref)
        | .method m => visit item c ref = (c, visitAstMethod m ref)
        | _ => True)
    ∧ (containsStr fixedSchemaKeys k = false →
        containsStr (admittedNames item) k = false →
        mentionsObj ref k = false →
        mentionsObj (visit item c ref).2 k = false) := by
  refine ⟨?_, ?_, ?_⟩
  · intro h
    have hrej : releaseTagAdmitted item.documentation.releaseTag = false := by
      rcases h with h | h <;> rw [h] <;> rfl
    cases item <;> simp_all [visit, AstItem.documentation]
  · intro h
    cases item <;> simp_all [visit, AstItem.documentation]
  · intro h1 h2 h3
    exact visit_key_absent item c ref k h1 h2 h3

/-- Witness for C1: the alpha-tagged class emits nothing, and the public
property inside it appears nowhere in the whole generated document. -/
theorem C1_stability_filter_witness :
    visit secretClass 0 [] = (0, [])
    ∧ mentionsObj (runGenerator 0 pkgWithSecret) "leakedProp" = false := by
  refine ⟨?_, ?_⟩
  · exact (C1_stability_filter secretClass 0 [] "x").1 (Or.inl rfl)
  · exact (C1_stability_filter pkgWithSecret 0 [] "leakedProp").2.2 rfl rfl rfl

/-- C2: two generator runs on fresh instances — whatever value the static
method counter carries over from earlier runs — produce the same canonical
document and the same write result: the output is a deterministic function
of the declaration tree alone. -/
theorem C2_determinism (c1 c2 : Nat) (reportFilename : String) (pkg : AstItem)
    (validate : JsonObject → Option String) :
    runGenerator c1 pkg = runGenerator c2 pkg
    ∧ writeJsonFile c1 reportFilename pkg validate
        = writeJsonFile c2 reportFilename pkg validate := by
  have h : runGenerator c1 pkg = runGenerator c2 pkg :=
    visit_snd_counter_eq pkg c1 c2 []
  refine ⟨h, ?_⟩
  simp only [writeJsonFile]
  rw [h]

/-- C3 counterexample: the document for `samplePkg` contains the emitted
entry `exports.Widget.members.plainMember`, and its value is the bare string
"apiMember-201" — a node that carries no `kind` field at all, and whose
value is not one of the published discriminator strings.  The claim that
every emitted node carries a vocabulary `kind` is therefore false. -/
theorem C3_counterexample :
    lookupPath (.obj (runGenerator 0 samplePkg))
        ["exports", "Widget", "members", "plainMember"] = some (.str "apiMember-201")
    ∧ objHasField (.str "apiMember-201") "kind" = false
    ∧ containsStr jsonKindVocabulary "apiMember-201" = false :=
  ⟨rfl, rfl, rfl⟩

/-- C3 (amended): a stability-rejected node emits nothing; a node whose
name fails the naming-support predicate emits nothing unless it is the root
package or a module-level variable (the two name-filter-exempt kinds); and
every entry an admitted projector emits is an object whose `kind` field is
one of the published discriminator strings — except the plain-member
fallback, which is emitted as the bare string `"apiMember-" + declKind`. -/
theorem C3_emitted_kind_vocabulary (item : AstItem) (c : Nat) (ref : JsonObject) :
    (releaseTagAdmitted item.documentation.releaseTag = false →
      visit item c ref = (c, ref))
    ∧ (releaseTagAdmitted item.documentation.releaseTag = true →
        item.supportedName = false →
        (match item with
         | .package _ _ _ _ => True
         | .moduleVariable _ => True
         | _ => visit item c ref = (c, ref)))
    ∧ (releaseTagAdmitted item.documentation.releaseTag = true →
        item.supportedName = true →
        (match item with
         | .package _ _ _ _ =>
            lookupKey (visit item c ref).2 "kind"
              = some (.str (convertKindToJson AstItemKind.Package))
         | .member m =>
            lookupKey (visit item c ref).2 m.name
              = some (.str ("apiMember-" ++ toString m.declKind))
         | .property p =>
            (p.declKind == setAccessorSyntaxKind) = false →
            ∃ s, lookupPath (.obj (visit item c ref).2) [p.name, "kind"] = some (.str s)
              ∧ containsStr jsonKindVocabulary s = true
         | _ =>
            ∃ s, lookupPath (.obj (visit item c ref).2) [item.name, "kind"] = some (.str s)
              ∧ containsStr jsonKindVocabulary s = true)) := by
  refine ⟨?_, ?_, ?_⟩
  · intro htag
    cases item <;> simp_all [visit, AstItem.documentation]
  · intro htag hsn
    cases item with
    | package n s d ms => trivial
    | moduleVariable v => trivial
    | namespaceDecl n s d ms =>
      simp_all [visit, AstItem.documentation, AstItem.supportedName]
    | structuredType n s d kind e i tp ms =>
      simp_all [visit, AstItem.documentation, AstItem.supportedName]
    | enumDecl n s d ms =>
      simp_all [visit, AstItem.documentation, AstItem.supportedName]
    | enumValue v =>
      simp_all [visit, AstItem.documentation, AstItem.supportedName, visitAstEnumValue]
    | functionDecl f =>
      simp_all [visit, AstItem.documentation, AstItem.supportedName, visitAstFunction]
    | member m =>
      simp_all [visit, AstItem.documentation, AstItem.supportedName, visitAstMember]
    | property p =>
      simp_all [visit, AstItem.documentation, AstItem.supportedName, visitAstProperty]
    | method m =>
      simp_all [visit, AstItem.documentation, AstItem.supportedName, visitAstMethod]
  · intro htag hsn
    cases item with
    | package n s d ms =>
      simp only [AstItem.documentation] at htag
      simp only [visit]
      rw [if_neg (by simp [htag])]
      simp [lookupKey_jsAssign_self, lookupKey_jsAssign_ne]
    | namespaceDecl n s d ms =>
      simp only [AstItem.documentation] at htag
      simp only [AstItem.supportedName] at hsn
      refine ⟨"namespace", ?_, rfl⟩
      simp [visit, htag, hsn, lookupPath, lookupKey_jsAssign_self, lookupKey,
        convertKindToJson, AstItem.name]
    | structuredType n s d kind e i tp ms =>
      simp only [AstItem.documentation] at htag
      simp only [AstItem.supportedName] at hsn
      refine ⟨structuredTypeKindString kind, ?_, ?_⟩
      · by_cases hms : ms.isEmpty <;>
          simp [visit, htag, hsn, hms, lookupPath, lookupKey_jsAssign_self, lookupKey,
            AstItem.name]
      · cases kind <;> rfl
    | enumDecl n s d ms =>
      simp only [AstItem.documentation] at htag
      simp only [AstItem.supportedName] at hsn
      refine ⟨"enum", ?_, rfl⟩
      simp [visit, htag, hsn, lookupPath, lookupKey_jsAssign_self, lookupKey,
        convertKindToJson, AstItem.name]
    | enumValue v =>
      simp only [AstItem.documentation] at htag
      simp only [AstItem.supportedName] at hsn
      refine ⟨"enum value", ?_, rfl⟩
      simp [visit, htag, hsn, visitAstEnumValue, lookupPath, lookupKey_jsAssign_self,
        lookupKey, convertKindToJson, AstItem.name]
    | functionDecl f =>
      simp only [AstItem.documentation] at htag
      simp only [AstItem.supportedName] at hsn
      refine ⟨"function", ?_, rfl⟩
      simp [visit, htag, hsn, visitAstFunction, lookupPath, lookupKey_jsAssign_self,
        lookupKey, convertKindToJson, AstItem.name]
    | member m =>
      simp only [AstItem.documentation] at htag
      simp only [AstItem.supportedName] at hsn
      simp [visit, htag, hsn, visitAstMember, lookupKey_jsAssign_self]
    | property p =>
      simp only [AstItem.documentation] at htag
      simp only [AstItem.supportedName] at hsn
      intro hset
      refine ⟨"property", ?_, rfl⟩
      simp [visit, htag, hsn, visitAstProperty, hset, lookupPath,
        lookupKey_jsAssign_self, lookupKey, convertKindToJson]
    | moduleVariable v =>
      simp only [AstItem.documentation] at htag
      refine ⟨"module variable", ?_, rfl⟩
      simp [visit, htag, visitAstModuleVariable, lookupPath, lookupKey_jsAssign_self,
        lookupKey, convertKindToJson, AstItem.name]
    | method m =>
      simp only [AstItem.documentation] at htag
      simp only [AstItem.supportedName] at hsn
      by_cases hc : (m.name == "__constructor") = true
      · refine ⟨"constructor", ?_, rfl⟩
        simp [visit, htag, hsn, visitAstMethod, hc, lookupPath,
          lookupKey_jsAssign_self, lookupKey, convertKindToJson, AstItem.name]
      · refine ⟨"method", ?_, rfl⟩
        simp [visit, htag, hsn, visitAstMethod, hc, lookupPath,
          lookupKey_jsAssign_self, lookupKey, convertKindToJson, AstItem.name]

/-- Witness for C3 (amended) at a concrete input: an unsupported-name enum
emits nothing; the class node for `Widget` carries the vocabulary kind
"class". -/
theorem C3_emitted_kind_vocabulary_witness :
    visit oddEnum 0 [] = (0, [])
    ∧ lookupPath (.obj (visit sampleWidgetClass 0 []).2) ["Widget", "kind"]
        = some (.str "class") := by
  exact ⟨(C3_emitted_kind_vocabulary oddEnum 0 []).2.1 rfl rfl, rfl⟩

/-- C4 counterexample: the fallback "placeholder node" for a plain member is
in fact a bare string — it has no fields at all, in particular no `kind`
field and no declaration-kind field. -/
theorem C4_counterexample :
    visitAstMember fallbackMember [] = [("fallbackMember", .str "apiMember-165")]
    ∧ objHasField (.str "apiMember-165") "kind" = false
    ∧ objKeys (.str "apiMember-165") = [] :=
  ⟨rfl, rfl, rfl⟩

/-- C4 (amended): an admitted class member that is neither a method, a
property nor an accessor is not a failure: the visitor installs under its
name the placeholder string `"apiMember-"` concatenated with the raw
numeric declaration-kind tag, every other key of the output object keeps
its value, and the visit completes normally. -/
theorem C4_member_placeholder (m : AstMember) (c : Nat) (ref : JsonObject)
    (htag : releaseTagAdmitted m.documentation.releaseTag = true)
    (hsn : m.supportedName = true) :
    lookupKey (visit (.member m) c ref).2 m.name
      = some (.str ("apiMember-" ++ toString m.declKind))
    ∧ (∀ k2, (m.name == k2) = false →
        lookupKey (visit (.member m) c ref).2 k2 = lookupKey ref k2)
    ∧ (visit (.member m) c ref).1 = c := by
  have hv : (visit (.member m) c ref).2
      = jsAssign ref m.name (.str ("apiMember-" ++ toString m.declKind)) := by
    simp [visit, htag, visitAstMember, hsn]
  refine ⟨?_, ?_, ?_⟩
  · rw [hv]
    exact lookupKey_jsAssign_self _ _ _
  · intro k2 hk2
    rw [hv]
    exact lookupKey_jsAssign_ne _ _ _ _ hk2
  · simp [visit, htag]

/-- Witness for C4 (amended): the concrete plain member lands as the
placeholder string while a pre-existing sibling entry survives. -/
theorem C4_member_placeholder_witness :
    lookupKey (visit (.member samplePlainMember) 0
        [("kept", .bool true)]).2 "plainMember" = some (.str "apiMember-201")
    ∧ lookupKey (visit (.member samplePlainMember) 0
        [("kept", .bool true)]).2 "kept" = some (.bool true) := by
  have h := C4_member_placeholder samplePlainMember 0 [("kept", .bool true)] rfl rfl
  exact ⟨h.1, (h.2.1 "kept" rfl).trans rfl⟩

/-- C5: for a getter/setter accessor pair sharing one name, visiting the
pair in either order into a members object that does not yet carry the name
produces exactly one entry for that name; the setter-declared visit emits
nothing and the surviving entry is the getter's property node. -/
theorem C5_setter_suppression (g s : AstProperty) (c1 c2 : Nat) (ref : JsonObject)
    (hname : s.name = g.name)
    (hgtag : releaseTagAdmitted g.documentation.releaseTag = true)
    (hstag : releaseTagAdmitted s.documentation.releaseTag = true)
    (hgsn : g.supportedName = true)
    (hssn : s.supportedName = true)
    (hgk : (g.declKind == setAccessorSyntaxKind) = false)
    (hsk : (s.declKind == setAccessorSyntaxKind) = true)
    (href : hasKey ref g.name = false) :
    countKey (visitMembers [.property g, .property s] c1 ref).2 g.name = 1
    ∧ countKey (visitMembers [.property s, .property g] c2 ref).2 g.name = 1
    ∧ lookupKey (visitMembers [.property g, .property s] c1 ref).2 g.name
        = lookupKey (visitAstProperty g []) g.name
    ∧ lookupKey (visitMembers [.property s, .property g] c2 ref).2 g.name
        = lookupKey (visitAstProperty g []) g.name := by
  have hsetterP : ∀ r : JsonObject, visitAstProperty s r = r := by
    intro r
    unfold visitAstProperty
    rw [if_neg (by simp [hssn]), if_pos hsk]
  have hsetter : ∀ (r : JsonObject) (c3 : Nat), visit (.property s) c3 r = (c3, r) := by
    intro r c3
    simp [visit, hstag, hsetterP]
  have hgetterP : ∀ r : JsonObject, visitAstProperty g r = jsAssign r g.name (.obj
      [("kind", .str (convertKindToJson AstItemKind.Property)),
       ("isOptional", .bool g.isOptional),
       ("isReadOnly", .bool g.isReadOnly),
       ("isStatic", .bool g.isStatic),
       ("type", .str g.type),
       ("deprecatedMessage", Json.strArr g.documentation.deprecatedMessage),
       ("summary", Json.strArr g.documentation.summary),
       ("remarks", Json.strArr g.documentation.remarks),
       ("isBeta", .bool (g.documentation.releaseTag == ReleaseTag.Beta))]) := by
    intro r
    unfold visitAstProperty
    rw [if_neg (by simp [hgsn]), if_neg (by simp [hgk])]
  have hgetter : ∀ (r : JsonObject) (c3 : Nat), visit (.property g) c3 r
      = (c3, visitAstProperty g r) := by
    intro r c3
    simp [visit, hgtag]
  have h1 : (visitMembers [.property g, .property s] c1 ref).2
      = visitAstProperty g ref := by
    simp [visitMembers, hgetter, hsetter]
  have h2 : (visitMembers [.property s, .property g] c2 ref).2
      = visitAstProperty g ref := by
    simp [visitMembers, hgetter, hsetter]
  refine ⟨?_, ?_, ?_, ?_⟩
  · rw [h1, hgetterP ref]
    exact countKey_jsAssign_new ref g.name _ href
  · rw [h2, hgetterP ref]
    exact countKey_jsAssign_new ref g.name _ href
  · rw [h1, hgetterP ref, hgetterP []]
    rw [lookupKey_jsAssign_self, lookupKey_jsAssign_self]
  · rw [h2, hgetterP ref, hgetterP []]
    rw [lookupKey_jsAssign_self, lookupKey_jsAssign_self]

/-- Witness for C5: the concrete `size` getter/setter pair yields exactly
one `size` entry in both visiting orders. -/
theorem C5_setter_suppression_witness :
    countKey (visitMembers [.property sampleGetter, .property sampleSetter] 0 []).2
        "size" = 1
    ∧ countKey (visitMembers [.property sampleSetter, .property sampleGetter] 0 []).2
        "size" = 1 := by
  have h := C5_setter_suppression sampleGetter sampleSetter 0 0 []
    rfl rfl rfl rfl rfl rfl rfl rfl
  exact ⟨h.1, h.2.1⟩

/-- C6: an admitted method named `__constructor` is emitted under the
constructor kind discriminator with exactly the reduced field set — in
particular without `accessModifier`, `isStatic`, `isOptional`,
`returnValue` and `isBeta` — while every other admitted method node
carries all five of those fields. -/
theorem C6_constructor_distinctness (m : AstMethod) (c : Nat) (ref : JsonObject)
    (htag : releaseTagAdmitted m.documentation.releaseTag = true)
    (hsn : m.supportedName = true) :
    (m.name = "__constructor" →
      lookupPath (.obj (visit (.method m) c ref).2) [m.name, "kind"]
          = some (.str (convertKindToJson AstItemKind.Constructor))
      ∧ fieldSet (visit (.method m) c ref).2 m.name
          = some ["kind", "signature", "parameters",
              "deprecatedMessage", "summary", "remarks"])
    ∧ (m.name ≠ "__constructor" →
      lookupPath (.obj (visit (.method m) c ref).2) [m.name, "kind"]
          = some (.str (convertKindToJson AstItemKind.Method))
      ∧ fieldSet (visit (.method m) c ref).2 m.name
          = some ["kind", "signature", "accessModifier", "isOptional", "isStatic",
              "returnValue", "parameters", "deprecatedMessage", "summary", "remarks",
              "isBeta"]) := by
  constructor
  · intro hc
    have hceq : (m.name == "__constructor") = true := by simp [hc]
    have hv : (visit (.method m) c ref).2 = jsAssign ref m.name (.obj
        [("kind", .str (convertKindToJson AstItemKind.Constructor)),
         ("signature", .str m.declarationLine),
         ("parameters", parametersJson (applyParams m.params m.documentation.parameters)),
         ("deprecatedMessage", Json.strArr m.documentation.deprecatedMessage),
         ("summary", Json.strArr m.documentation.summary),
         ("remarks", Json.strArr m.documentation.remarks)]) := by
      simp [visit, htag, visitAstMethod, hsn, hceq]
    constructor
    · simp only [lookupPath, hv, lookupKey_jsAssign_self]
      rfl
    · simp only [fieldSet, hv, lookupKey_jsAssign_self]
      rfl
  · intro hc
    have hceq : (m.name == "__constructor") = false := by simp [hc]
    have hv : (visit (.method m) c ref).2 = jsAssign ref m.name (.obj
        [("kind", .str (convertKindToJson AstItemKind.Method)),
         ("signature", .str m.declarationLine),
         ("accessModifier", .str (match m.accessModifier with
           | some a => a.lowerName
           | none => "")),
         ("isOptional", .bool m.isOptional),
         ("isStatic", .bool m.isStatic),
         ("returnValue", .obj
           [("type", .str m.returnType),
            ("description", Json.strArr m.documentation.returnsMessage)]),
         ("parameters", parametersJson (applyParams m.params m.documentation.parameters)),
         ("deprecatedMessage", Json.strArr m.documentation.deprecatedMessage),
         ("summary", Json.strArr m.documentation.summary),
         ("remarks", Json.strArr m.documentation.remarks),
         ("isBeta", .bool (m.documentation.releaseTag == ReleaseTag.Beta))]) := by
      simp [visit, htag, visitAstMethod, hsn, hceq]
    constructor
    · simp only [lookupPath, hv, lookupKey_jsAssign_self]
      rfl
    · simp only [fieldSet, hv, lookupKey_jsAssign_self]
      rfl

/-- Witness for C6: the concrete constructor member carries exactly the
reduced field set and the concrete ordinary method the full one. -/
theorem C6_constructor_distinctness_witness :
    fieldSet (visit (.method sampleCtor) 0 []).2 "__constructor"
      = some ["kind", "signature", "parameters", "deprecatedMessage", "summary",
          "remarks"]
    ∧ fieldSet (visit (.method sampleMethod) 0 []).2 "render"
      = some ["kind", "signature", "accessModifier", "isOptional", "isStatic",
          "returnValue", "parameters", "deprecatedMessage", "summary", "remarks",
          "isBeta"] := by
  have h1 := (C6_constructor_distinctness sampleCtor 0 [] rfl rfl).1 rfl
  have h2 := (C6_constructor_distinctness sampleMethod 0 [] rfl rfl).2 (by decide)
  exact ⟨h1.2, h2.2⟩

/-- C7: for an admitted enum value declared with an explicit initializer
(token list `name = literal`), the emitted node's `value` field is the
literal's text; with no initializer (a single-token declaration), `value`
is the empty string. -/
theorem C7_enum_value_literal (v : AstEnumValue) (c : Nat) (ref : JsonObject)
    (htag : releaseTagAdmitted v.documentation.releaseTag = true)
    (hsn : v.supportedName = true) :
    (∀ n lit, v.declTokens = [n, "=", lit] →
      lookupPath (.obj (visit (.enumValue v) c ref).2) [v.name, "value"]
        = some (.str lit))
    ∧ (∀ n, v.declTokens = [n] →
      lookupPath (.obj (visit (.enumValue v) c ref).2) [v.name, "value"]
        = some (.str "")) := by
  have hv : (visit (.enumValue v) c ref).2 = jsAssign ref v.name (.obj
      [("kind", .str (convertKindToJson AstItemKind.EnumValue)),
       ("value", .str (enumValueLiteral v.declTokens)),
       ("deprecatedMessage", Json.strArr v.documentation.deprecatedMessage),
       ("summary", Json.strArr v.documentation.summary),
       ("remarks", Json.strArr v.documentation.remarks),
       ("isBeta", .bool (v.documentation.releaseTag == ReleaseTag.Beta))]) := by
    simp [visit, htag, visitAstEnumValue, hsn]
  constructor
  · intro n lit htok
    simp only [lookupPath, hv, lookupKey_jsAssign_self, htok]
    simp [lookupPath, lookupKey, enumValueLiteral]
  · intro n htok
    simp only [lookupPath, hv, lookupKey_jsAssign_self, htok]
    simp [lookupPath, lookupKey, enumValueLiteral]

/-- Witness for C7: `A = 5` yields value "5"; plain `B` yields "". -/
theorem C7_enum_value_literal_witness :
    lookupPath (.obj (visit (.enumValue sampleEnumValueInit) 0 []).2) ["A", "value"]
      = some (.str "5")
    ∧ lookupPath (.obj (visit (.enumValue sampleEnumValueNoInit) 0 []).2) ["B", "value"]
      = some (.str "") := by
  exact ⟨(C7_enum_value_literal sampleEnumValueInit 0 [] rfl rfl).1 "A" "5" rfl,
    (C7_enum_value_literal sampleEnumValueNoInit 0 [] rfl rfl).2 "B" rfl⟩

/-- C8: a projector drops an admitted node whose name fails the
naming-support predicate — except the package root and module-level
variables, which are emitted without consulting the name filter. -/
theorem C8_name_filter_exemptions (item : AstItem) (c : Nat) (ref : JsonObject)
    (htag : releaseTagAdmitted item.documentation.releaseTag = true)
    (hsn : item.supportedName = false) :
    match item with
    | .package _ _ _ ms =>
        lookupKey (visit item c ref).2 "kind"
          = some (.str (convertKindToJson AstItemKind.Package))
        ∧ lookupKey (visit item c ref).2 "exports"
          = some (.obj (visitMembers ms c []).2)
    | .moduleVariable v =>
        lookupPath (.obj (visit item c ref).2) [v.name, "kind"]
          = some (.str (convertKindToJson AstItemKind.ModuleVariable))
    | _ => visit item c ref = (c, ref) := by
  cases item with
  | package n s d ms =>
    simp only [AstItem.documentation] at htag
    simp only [visit]
    rw [if_neg (by simp [htag])]
    constructor
    · simp [lookupKey_jsAssign_self, lookupKey_jsAssign_ne]
    · simp [lookupKey_jsAssign_self]
  | moduleVariable v =>
    simp only [AstItem.documentation] at htag
    simp [visit, htag, visitAstModuleVariable, lookupPath, lookupKey_jsAssign_self,
      lookupKey, convertKindToJson]
  | namespaceDecl n s d ms =>
    simp only [AstItem.documentation] at htag
    simp only [AstItem.supportedName] at hsn
    simp [visit, htag, hsn]
  | structuredType n s d kind e i tp ms =>
    simp only [AstItem.documentation] at htag
    simp only [AstItem.supportedName] at hsn
    simp [visit, htag, hsn]
  | enumDecl n s d ms =>
    simp only [AstItem.documentation] at htag
    simp only [AstItem.supportedName] at hsn
    simp [visit, htag, hsn]
  | enumValue v =>
    simp only [AstItem.documentation] at htag
    simp only [AstItem.supportedName] at hsn
    simp [visit, htag, hsn, visitAstEnumValue]
  | functionDecl f =>
    simp only [AstItem.documentation] at htag
    simp only [AstItem.supportedName] at hsn
    simp [visit, htag, hsn, visitAstFunction]
  | member m =>
    simp only [AstItem.documentation] at htag
    simp only [AstItem.supportedName] at hsn
    simp [visit, htag, hsn, visitAstMember]
  | property p =>
    simp only [AstItem.documentation] at htag
    simp only [AstItem.supportedName] at hsn
    simp [visit, htag, hsn, visitAstProperty]
  | method m =>
    simp only [AstItem.documentation] at htag
    simp only [AstItem.supportedName] at hsn
    simp [visit, htag, hsn, visitAstMethod]

/-- Witness for C8: an unsupported-name module variable and an
unsupported-name package are still emitted; an unsupported-name enum is
dropped. -/
theorem C8_name_filter_exemptions_witness :
    lookupPath (.obj (visit (.moduleVariable oddModuleVar) 0 []).2) ["$odd", "kind"]
      = some (.str "module variable")
    ∧ lookupKey (visit oddPkg 0 []).2 "kind" = some (.str "package")
    ∧ visit oddEnum 0 [] = (0, []) := by
  refine ⟨?_, ?_, ?_⟩
  · exact C8_name_filter_exemptions (.moduleVariable oddModuleVar) 0 [] rfl rfl
  · exact (C8_name_filter_exemptions oddPkg 0 [] rfl rfl).1
  · exact C8_name_filter_exemptions oddEnum 0 [] rfl rfl

/-- C9: the write operation either succeeds silently (success outcome, no
error log) or raises a fatal error whose message is the report file's
basename followed by the fixed schema-mismatch text and the validator's
structured diagnostic details. -/
theorem C9_write_failure_surface (c : Nat) (reportFilename : String) (pkg : AstItem)
    (validate : JsonObject → Option String) :
    ((writeJsonFile c reportFilename pkg validate).outcome = .success
      ∧ (writeJsonFile c reportFilename pkg validate).loggedError = none)
    ∨ (∃ details, validate (runGenerator c pkg) = some details
        ∧ (writeJsonFile c reportFilename pkg validate).outcome
            = .fatalError (pathBasename reportFilename ++ schemaMismatchText
                ++ osEOL ++ details)) := by
  cases h : validate (runGenerator c pkg) with
  | none =>
    left
    constructor <;> simp [writeJsonFile, h]
  | some details =>
    right
    exact ⟨details, rfl, by simp [writeJsonFile, h]⟩

/-- C10: `writeJsonFile` saves the document before validating it, so when
validation fails and the fatal error is raised, the (invalid) document has
already been persisted to the output path — the failure is not atomic with
respect to the output file. -/
theorem C10_saved_before_validation (c : Nat) (reportFilename : String) (pkg : AstItem)
    (validate : JsonObject → Option String) (details : String)
    (hfail : validate (runGenerator c pkg) = some details) :
    (writeJsonFile c reportFilename pkg validate).savedFile
        = some (reportFilename, runGenerator c pkg)
    ∧ (writeJsonFile c reportFilename pkg validate).outcome
        = .fatalError (pathBasename reportFilename ++ schemaMismatchText
            ++ osEOL ++ details) := by
  constructor <;> simp [writeJsonFile, hfail]

/-- Witness for C10: with an always-failing validator, the concrete run
both persists the document and raises the fatal error. -/
theorem C10_saved_before_validation_witness :
    (writeJsonFile 0 "report/sample.api.json" samplePkg
        (fun _ => some "schema diagnostic")).savedFile
      = some ("report/sample.api.json", runGenerator 0 samplePkg)
    ∧ (writeJsonFile 0 "report/sample.api.json" samplePkg
        (fun _ => some "schema diagnostic")).outcome
      = .fatalError ("sample.api.json" ++ schemaMismatchText ++ osEOL
          ++ "schema diagnostic") := by
  have h := C10_saved_before_validation 0 "report/sample.api.json" samplePkg
    (fun _ => some "schema diagnostic") "schema diagnostic" rfl
  exact ⟨h.1, h.2⟩
